import Mathlib

/-!
Verification of the SkillScout.ai agent-orchestration and resource-reconciliation
pipeline (src/services/geminiService.ts and src/App.tsx), as a shallow embedding
in Lean 4.

Modelling conventions:
* JavaScript strings are modelled as Lean `String`/`List Char`.  String
  primitives used by the source (`trim`, `toLowerCase`, `startsWith`,
  `includes`, `replace` with the concrete anchored regexes appearing in the
  source) are implemented over `List Char`; `toLowerCase` is modelled on the
  ASCII range, which covers every string the source compares against.
* The Gemini SDK call is the only effect; it is modelled by passing its result
  (`Except JSError GenResponse`) to the embedded functions.  A thrown
  JavaScript exception is `Except.error`.
* `JSON.parse` and `new URL(...).hostname` are browser built-ins; they are
  modelled as oracle functions supplied in `CuratorEnv` (for the curator) and
  as a `parse` argument (for the planner).  `none` means the built-in threw.
* `setTimeout` delays carry no observable state beyond their durations; the
  retry wrapper returns the list of waits it performed, and the controller
  omits the fixed 6000 ms throttle (no claim mentions it).
-/

set_option maxRecDepth 4096

namespace SkillScout

/-! ### Character-list string primitives -/

/-- Whitespace characters removed by JavaScript `String.prototype.trim`
(restricted to the code points that can actually occur here). -/
def jsWhitespace (c : Char) : Bool :=
  c = ' ' || c = '\t' || c = '\n' || c = '\r' ||
  c = Char.ofNat 11 || c = Char.ofNat 12 || c = Char.ofNat 160 || c = Char.ofNat 65279

def lcTrim (s : List Char) : List Char :=
  ((s.dropWhile jsWhitespace).reverse.dropWhile jsWhitespace).reverse

def strTrim (s : String) : String :=
  String.mk (lcTrim s.toList)

def strLower (s : String) : String :=
  String.mk (s.toList.map Char.toLower)

def strStarts (s pat : String) : Bool :=
  List.isPrefixOf pat.toList s.toList

def strEnds (s pat : String) : Bool :=
  List.isSuffixOf pat.toList s.toList

def strDrop (s : String) (n : Nat) : String :=
  String.mk (s.toList.drop n)

def strDropRight (s : String) (n : Nat) : String :=
  String.mk (s.toList.take (s.toList.length - n))

/-- Does `pat` occur as a contiguous substring of `s`?  Models
JavaScript `String.prototype.includes`. -/
def listContains : List Char → List Char → Bool
  | [], pat => pat.isEmpty
  | c :: cs, pat => List.isPrefixOf pat (c :: cs) || listContains cs pat

def strContains (s pat : String) : Bool :=
  listContains s.toList pat.toList

/-- The back-quote character (code point 96). -/
def fenceChar : Char := Char.ofNat 96

/-- Global replacement of the regex alternation matching a triple back-quote
optionally followed by the letters of "json" with the empty string
(the fence-stripping step applied to model output before `JSON.parse`). -/
def stripFencesAux : List Char → List Char
  | a :: b :: c :: 'j' :: 's' :: 'o' :: 'n' :: rest =>
    if a = fenceChar && b = fenceChar && c = fenceChar then stripFencesAux rest
    else a :: stripFencesAux (b :: c :: 'j' :: 's' :: 'o' :: 'n' :: rest)
  | a :: b :: c :: rest =>
    if a = fenceChar && b = fenceChar && c = fenceChar then stripFencesAux rest
    else a :: stripFencesAux (b :: c :: rest)
  | xs => xs

def stripFences (s : String) : String :=
  String.mk (stripFencesAux s.toList)

/-- Remove the first occurrence of `pat` from `s` (JavaScript
`String.prototype.replace` with a plain-string pattern and empty replacement). -/
def lcRemoveFirst : List Char → List Char → List Char
  | [], _ => []
  | c :: cs, pat =>
    if List.isPrefixOf pat (c :: cs) then (c :: cs).drop pat.length
    else c :: lcRemoveFirst cs pat

def strRemoveFirst (s pat : String) : String :=
  String.mk (lcRemoveFirst s.toList pat.toList)

/-! ### getYouTubeVideoId / getYouTubeThumbnail (geminiService.ts lines 9-21)

The source matches
`/^.*(youtu.be\/|v\/|u\/\w\/|embed\/|watch\?v=|&v=|shorts\/)([^#&?]*).*/`.
The leading greedy `.*` makes the engine pick the rightmost position at which
one of the alternatives matches (the alternatives start with pairwise distinct
first characters, so at most one alternative matches at a given position);
group 2 is then the longest following run free of `#`, `&`, `?`.  `.` does not
match a newline, so positions beyond the first newline are unreachable and the
wildcard inside `youtu.be` (an unescaped dot) accepts any non-newline
character. -/

def isWordChar (c : Char) : Bool :=
  c.isAlphanum || c = '_'

/-- If one of the regex alternatives matches at the head of `s`, return its
length. -/
def altMatchLen (s : List Char) : Option Nat :=
  match s with
  | 'y' :: 'o' :: 'u' :: 't' :: 'u' :: a :: 'b' :: 'e' :: '/' :: _ =>
    if a = '\n' then none else some 9
  | 'v' :: '/' :: _ => some 2
  | 'u' :: '/' :: w :: '/' :: _ => if isWordChar w then some 4 else none
  | 'e' :: 'm' :: 'b' :: 'e' :: 'd' :: '/' :: _ => some 6
  | 'w' :: 'a' :: 't' :: 'c' :: 'h' :: '?' :: 'v' :: '=' :: _ => some 8
  | '&' :: 'v' :: '=' :: _ => some 3
  | 's' :: 'h' :: 'o' :: 'r' :: 't' :: 's' :: '/' :: _ => some 7
  | _ => none

/-- The suffix following the rightmost alternative match reachable by the
leading `.*` (which cannot cross a newline). -/
def lastAltRemainder : List Char → Option (List Char)
  | [] => none
  | c :: cs =>
    let here : Option (List Char) :=
      match altMatchLen (c :: cs) with
      | some k => some ((c :: cs).drop k)
      | none => none
    if c = '\n' then here
    else
      match lastAltRemainder cs with
      | some r => some r
      | none => here

def getYouTubeVideoId (url : String) : Option String :=
  if url = "" then none
  else
    match lastAltRemainder url.toList with
    | none => none
    | some rem =>
      let id := rem.takeWhile (fun c => !(c = '#' || c = '&' || c = '?'))
      if id.length = 11 then some (String.mk id) else none

def getYouTubeThumbnail (url : String) : Option String :=
  match getYouTubeVideoId url with
  | some id => some ("https://img.youtube.com/vi/" ++ id ++ "/hqdefault.jpg")
  | none => none

/-! ### normalizeUrl (geminiService.ts lines 24-32)

`url.replace(/^(https?:\/\/)?(www\.)?/, '').replace(/\/$/, '').toLowerCase()`:
the (case-sensitive) anchored prefixes are stripped first, then one trailing
slash, and only then is the remainder lower-cased.  The surrounding
`try`/`catch` is dead code (none of these string methods throw). -/

def stripSchemeWww (s : String) : String :=
  let s1 :=
    if strStarts s "https://" then strDrop s 8
    else if strStarts s "http://" then strDrop s 7
    else s
  if strStarts s1 "www." then strDrop s1 4 else s1

def normalizeUrl (url : String) : String :=
  let s1 := stripSchemeWww url
  let s2 := if strEnds s1 "/" then strDropRight s1 1 else s1
  strLower s2

/-- Modelled from the spec, for comparison with `normalizeUrl`:
"lower-case the URI, strip a leading `http://` or `https://`, strip a leading
`www.`, strip one trailing `/`" — note the spec lower-cases first. -/
def specNormalizeUrl (url : String) : String :=
  let s := strLower url
  let s1 := stripSchemeWww s
  if strEnds s1 "/" then strDropRight s1 1 else s1

/-! ### cleanTitle (geminiService.ts lines 35-65) -/

/-- The four chained `replace(/ - YouTube$/,'')`-style suffix strips. -/
def stripKnownSuffixes (s : String) : String :=
  let s1 := if strEnds s " - YouTube" then strDropRight s 10 else s
  let s2 := if strEnds s1 " | Coursera" then strDropRight s1 11 else s1
  let s3 := if strEnds s2 " - GeeksforGeeks" then strDropRight s2 16 else s2
  if strEnds s3 " - Wikipedia" then strDropRight s3 12 else s3

def isGenericTitle (s : String) : Bool :=
  let lower := strLower s
  lower = "youtube" || lower = "youtube.com" || strStarts lower "http" ||
  lower = "video" || lower = "article" || lower = "home" || lower = "index"

/-- `cleanTitle(title, uri, topicTitle)`; `none` is JavaScript `undefined`. -/
def cleanTitle (title : Option String) (uri topicTitle : String) : String :=
  let cleanUri := normalizeUrl uri
  match title with
  | none =>
    if strContains cleanUri "youtube" || strContains cleanUri "youtu.be" ||
        strContains cleanUri "vimeo" then
      topicTitle ++ " (Video)"
    else topicTitle ++ " Guide"
  | some t =>
    if strTrim t = "" then
      if strContains cleanUri "youtube" || strContains cleanUri "youtu.be" ||
          strContains cleanUri "vimeo" then
        topicTitle ++ " (Video)"
      else topicTitle ++ " Guide"
    else
      let clean := stripKnownSuffixes (strTrim t)
      if isGenericTitle clean then
        if strContains cleanUri "youtube" || strContains cleanUri "youtu.be" then
          topicTitle ++ " (Video)"
        else topicTitle ++ " Guide"
      else clean

/-! ### retryWithBackoff (geminiService.ts lines 68-85)

A JavaScript error value is inspected for `status`, `code` and `message`
properties; `status`/`code` may hold a number or a string. -/

inductive JSVal where
  | num (n : Int)
  | str (s : String)
deriving DecidableEq

structure JSError where
  status : Option JSVal
  code : Option JSVal
  message : Option String
deriving DecidableEq

/-- The rate-limit signature test on the caught error, in source order:
`error?.status === 429 || error?.code === 429 ||
 error?.message?.includes('429') || error?.status === 'RESOURCE_EXHAUSTED'`. -/
def isRateLimitError (e : JSError) : Bool :=
  e.status == some (JSVal.num 429) || e.code == some (JSVal.num 429) ||
  (match e.message with
   | some m => strContains m "429"
   | none => false) ||
  e.status == some (JSVal.str "RESOURCE_EXHAUSTED")

/-- The body of `retryWithBackoff`: the operation is modelled as a function
from the attempt number to its outcome; the second component of the result is
the list of waits (in ms) actually performed before retries. -/
def retryGo {α : Type} (fn : Nat → Except JSError α) :
    Nat → Nat → Nat → Except JSError α × List Nat
  | attempt, 0, _ =>
    (fn attempt, [])
  | attempt, r + 1, delay =>
    match fn attempt with
    | Except.ok a => (Except.ok a, [])
    | Except.error e =>
      if isRateLimitError e then
        let res := retryGo fn (attempt + 1) r (delay * 2)
        (res.1, delay :: res.2)
      else (Except.error e, [])

def retryWithBackoff {α : Type} (fn : Nat → Except JSError α)
    (retries delay : Nat) : Except JSError α × List Nat :=
  retryGo fn 0 retries delay

/-! ### encodeURIComponent

Percent-encodes every character outside the unreserved set, byte-by-byte over
the character's UTF-8 encoding, with upper-case hex digits. -/

def uriUnreserved (c : Char) : Bool :=
  c.isAlphanum || c = '-' || c = '_' || c = '.' || c = '!' || c = '~' ||
  c = '*' || c = Char.ofNat 39 || c = '(' || c = ')'

def utf8Bytes (c : Char) : List Nat :=
  let n := c.toNat
  if n < 128 then [n]
  else if n < 2048 then [192 + n / 64, 128 + n % 64]
  else if n < 65536 then [224 + n / 4096, 128 + (n / 64) % 64, 128 + n % 64]
  else [240 + n / 262144, 128 + (n / 4096) % 64, 128 + (n / 64) % 64, 128 + n % 64]

def hexDigit (n : Nat) : Char :=
  if n < 10 then Char.ofNat (48 + n) else Char.ofNat (55 + n)

def percentByte (b : Nat) : String :=
  String.mk ['%', hexDigit (b / 16), hexDigit (b % 16)]

def encodeURIComponent (s : String) : String :=
  String.join (s.toList.map fun c =>
    if uriUnreserved c then String.mk [c]
    else String.join ((utf8Bytes c).map percentByte))

/-! ### Curator data model (types.ts) and agent (geminiService.ts lines 181-307) -/

structure ResourceLink where
  title : String
  uri : String
  source : Option String
  thumbnail : Option String
  description : Option String
deriving DecidableEq

structure CuratedContent where
  summary : String
  resources : List ResourceLink
deriving DecidableEq

/-- One grounding citation: `chunk.web?.uri` / `chunk.web?.title` may each be
absent. -/
structure WebInfo where
  uri : Option String
  title : Option String
deriving DecidableEq

structure Chunk where
  web : Option WebInfo
deriving DecidableEq

/-- One element of the model's JSON array in step 3, with the fields the code
reads (`uri`, `description`, `title`); `none` is an absent field.
Values of other JSON types cannot reach the field updates (a non-string `uri`
would throw inside the inner `try`, which only abandons enrichment). -/
structure EnrichItem where
  uri : Option String
  description : Option String
  title : Option String
deriving DecidableEq

/-- The generation response: `candidates?.[0]?.groundingMetadata?.groundingChunks
|| []` is already collapsed into a plain list, and `response.text` may be
absent. -/
structure GenResponse where
  groundingChunks : List Chunk
  text : Option String
deriving DecidableEq

/-- Browser built-ins used by the curator, supplied as oracles:
`urlHostname u` models `new URL(u).hostname` (`none` = the constructor threw),
and `parseEnrich s` models `JSON.parse(s)` followed by the `Array.isArray`
check (`none` = parse threw or the value was not an array). -/
structure CuratorEnv where
  urlHostname : String → Option String
  parseEnrich : String → Option (List EnrichItem)

/-- `chunk.web?.uri && chunk.web?.title` (empty strings are falsy). -/
def chunkUsable (ch : Chunk) : Bool :=
  match ch.web with
  | some w =>
    (match w.uri with
     | some u => !(u = "")
     | none => false) &&
    (match w.title with
     | some t => !(t = "")
     | none => false)
  | none => false

/-- Step 2: map one usable grounding chunk to a `ResourceLink`; `none` means
`new URL(uri)` threw, which aborts the whole `try` block. -/
def chunkToResource (env : CuratorEnv) (topicTitle : String) (ch : Chunk) :
    Option ResourceLink :=
  match ch.web with
  | some w =>
    match w.uri, w.title with
    | some u, some t =>
      match env.urlHostname u with
      | some h =>
        some { title := cleanTitle (some t) u topicTitle
               uri := u
               source := some (strRemoveFirst h "www.")
               thumbnail := getYouTubeThumbnail u
               description := some "Recommended resource found via Google Search." }
      | none => none
    | _, _ => none
  | none => none

def chunksToResources (env : CuratorEnv) (topicTitle : String) :
    List Chunk → Option (List ResourceLink)
  | [] => some []
  | ch :: rest =>
    match chunkToResource env topicTitle ch with
    | none => none
    | some r =>
      match chunksToResources env topicTitle rest with
      | none => none
      | some rs => some (r :: rs)

def groundedResources (env : CuratorEnv) (topicTitle : String)
    (chunks : List Chunk) : Option (List ResourceLink) :=
  chunksToResources env topicTitle (chunks.filter chunkUsable)

/-- Update the first element satisfying `p` (models `Array.prototype.find`
followed by in-place mutation of the found element). -/
def updateFirst {α : Type} : List α → (α → Bool) → (α → α) → List α
  | [], _, _ => []
  | a :: as, p, f => if p a then f a :: as else a :: updateFirst as p f

/-- Step 3, one item: if `item.uri && item.description`, overwrite the first
grounding resource with matching normalized URI. -/
def applyEnrichItem (topicTitle : String) (rs : List ResourceLink)
    (item : EnrichItem) : List ResourceLink :=
  match item.uri, item.description with
  | some u, some d =>
    if !(u = "") && !(d = "") then
      updateFirst rs (fun r => normalizeUrl r.uri == normalizeUrl u) (fun r =>
        { r with
          description := some d
          title :=
            match item.title with
            | some ti =>
              if !(ti = "") && ti.length < 100 then cleanTitle (some ti) u topicTitle
              else r.title
            | none => r.title })
    else rs
  | _, _ => rs

/-- Step 3: secondary enrichment from the model's fenced JSON text; any parse
failure falls back to the grounding-only data. -/
def enrichStep (env : CuratorEnv) (topicTitle : String) (text : Option String)
    (rs : List ResourceLink) : List ResourceLink :=
  match text with
  | none => rs
  | some t =>
    if t = "" then rs
    else
      match env.parseEnrich (strTrim (stripFences t)) with
      | none => rs
      | some items => items.foldl (applyEnrichItem topicTitle) rs

/-- Step 4: the two synthesized search links when grounding produced nothing. -/
def withFallback (topicTitle context : String) (rs : List ResourceLink) :
    List ResourceLink :=
  if rs.isEmpty then
    [ { title := "Search Google for \"" ++ topicTitle ++ "\""
        uri := "https://www.google.com/search?q=" ++
          encodeURIComponent (topicTitle ++ " " ++ context ++ " tutorial")
        source := some "google.com"
        thumbnail := none
        description := some "No specific verified links found. Click to search manually." },
      { title := "Search YouTube for \"" ++ topicTitle ++ "\""
        uri := "https://www.youtube.com/results?search_query=" ++
          encodeURIComponent (topicTitle ++ " tutorial")
        source := some "youtube.com"
        thumbnail := none
        description := some "Find video tutorials on YouTube." } ]
  else rs

def isRootUri (u : String) : Bool :=
  let lower := strLower u
  lower = "https://www.youtube.com/" || lower = "https://www.google.com/" ||
  lower = "https://youtube.com/"

/-- Step 5: drop bare platform homepages, but only when more than two
resources remain. -/
def rootFiltered (rs : List ResourceLink) : List ResourceLink :=
  if 2 < rs.length then rs.filter (fun r => !isRootUri r.uri) else rs

/-- Steps 2-4 combined: the candidate list before root filtering, `none` when
`new URL` threw on some grounded citation. -/
def preFilterResources (env : CuratorEnv) (topicTitle context : String)
    (resp : GenResponse) : Option (List ResourceLink) :=
  match groundedResources env topicTitle resp.groundingChunks with
  | some rs => some (withFallback topicTitle context (enrichStep env topicTitle resp.text rs))
  | none => none

/-- The `try` block of `runCuratorAgent` after a successful generation call;
`none` means an exception reached the outer `catch`.  The summary interpolates
`resources.length` as it stands after root filtering but before `slice(0, 5)`. -/
def curatorTry (env : CuratorEnv) (topicTitle context : String)
    (resp : GenResponse) : Option CuratedContent :=
  match preFilterResources env topicTitle context resp with
  | none => none
  | some pre =>
    let rs := rootFiltered pre
    some { summary := "Here are " ++ toString rs.length ++
             " curated resources for " ++ topicTitle ++ "."
           resources := rs.take 5 }

/-- The `catch` branch: the guaranteed single-resource fallback. -/
def curatorErrorContent (topicTitle : String) : CuratedContent :=
  { summary := "Could not curate specific resources due to an error."
    resources :=
      [ { title := "Search \"" ++ topicTitle ++ "\" on Google"
          uri := "https://www.google.com/search?q=" ++ encodeURIComponent topicTitle
          source := some "google.com"
          thumbnail := none
          description := some "Manual search fallback." } ] }

/-- `runCuratorAgent`: total — every failure path resolves to a value.  The
generation call's outcome (after the retry wrapper) is passed in as `gen`. -/
def runCuratorAgent (env : CuratorEnv) (topicTitle context : String)
    (gen : Except JSError GenResponse) : CuratedContent :=
  match gen with
  | Except.error _ => curatorErrorContent topicTitle
  | Except.ok resp =>
    match curatorTry env topicTitle context resp with
    | some content => content
    | none => curatorErrorContent topicTitle

/-- Did the root-domain filter remove every candidate?  (Possible exactly when
more than two candidates remained and all of them were bare homepages.) -/
def curatorRootEmptied (env : CuratorEnv) (topicTitle context : String)
    (gen : Except JSError GenResponse) : Bool :=
  match gen with
  | Except.ok resp =>
    (match preFilterResources env topicTitle context resp with
     | some pre => decide (2 < pre.length) && pre.all (fun r => isRootUri r.uri)
     | none => false)
  | Except.error _ => false

/-! ### Planner Agent (geminiService.ts lines 120-177)

The parsed JSON value is dynamic; the code only requires `data.modules` to be
an array each of whose elements has an array `topics` property — the other
schema fields are spread through without any check. -/

inductive JValue where
  | null
  | bool (b : Bool)
  | num (n : Int)
  | str (s : String)
  | arr (elems : List JValue)
  | obj (fields : List (String × JValue))

def lookupField : List (String × JValue) → String → Option JValue
  | [], _ => none
  | (k, v) :: rest, key => if k = key then some v else lookupField rest key

/-- Property access `v.key`: `none` both when `v` is not an object (access on
`null` throws, on primitives yields `undefined`) and when the key is absent. -/
def getField : JValue → String → Option JValue
  | JValue.obj fs, key => lookupField fs key
  | _, _ => none

inductive PlannerError where
  | noText
  | parseFailure
  | badShape
deriving DecidableEq

/-- A processed topic: `{...top, id}` — the spread keeps whatever the model
returned, the generated id is the only field the code adds. -/
structure PTopic where
  source : JValue
  id : String

/-- A processed module: `{...mod, topics: ...}`. -/
structure PModule where
  source : JValue
  topics : List PTopic

/-- The returned curriculum: `{...data, id, createdAt, modules}`. -/
structure PCurriculum where
  source : JValue
  id : String
  createdAt : Int
  modules : List PModule

def processTopics (mIdx : Nat) : Nat → List JValue → List PTopic
  | _, [] => []
  | tIdx, tv :: rest =>
    { source := tv, id := "m" ++ toString mIdx ++ "-t" ++ toString tIdx } ::
      processTopics mIdx (tIdx + 1) rest

/-- `mod.topics.map(...)` — throws (`none`) unless `mod.topics` is an array. -/
def processModule (mIdx : Nat) (mv : JValue) : Option PModule :=
  match getField mv "topics" with
  | some (JValue.arr ts) => some { source := mv, topics := processTopics mIdx 0 ts }
  | _ => none

def processModules : Nat → List JValue → Option (List PModule)
  | _, [] => some []
  | mIdx, mv :: rest =>
    match processModule mIdx mv with
    | none => none
    | some pm =>
      match processModules (mIdx + 1) rest with
      | none => none
      | some pms => some (pm :: pms)

def isOkE {ε α : Type} : Except ε α → Bool
  | Except.ok _ => true
  | Except.error _ => false

/-- `runPlannerAgent` after the generation call returned: `text` is
`response.text`, `parse` is the `JSON.parse` oracle, `newId`/`now` stand for
`crypto.randomUUID()` and `Date.now()`.  Every thrown error is rethrown by the
`catch`, so errors are surfaced as `Except.error`. -/
def runPlannerAgent (text : Option String) (parse : String → Option JValue)
    (newId : String) (now : Int) : Except PlannerError PCurriculum :=
  match text with
  | none => Except.error PlannerError.noText
  | some t =>
    if t = "" then Except.error PlannerError.noText
    else
      match parse (strTrim (stripFences t)) with
      | none => Except.error PlannerError.parseFailure
      | some data =>
        match getField data "modules" with
        | some (JValue.arr ms) =>
          (match processModules 0 ms with
           | some pmods =>
             Except.ok { source := data, id := newId, createdAt := now, modules := pmods }
           | none => Except.error PlannerError.badShape)
        | _ => Except.error PlannerError.badShape

/-- The structural condition under which the planner post-processing does not
throw: `modules` is an array and every element has an array `topics` field. -/
def plannerShapeOk (v : JValue) : Bool :=
  match getField v "modules" with
  | some (JValue.arr ms) =>
    ms.all (fun m =>
      match getField m "topics" with
      | some (JValue.arr _) => true
      | _ => false)
  | _ => false

/-! ### Orchestration Controller (App.tsx startGeneration, lines 13-81)

The controller publishes `AgentStatus` values through `setStatus` and
curriculum snapshots through `setCurriculum`; a `RunTrace` records both
streams in publish order plus the number of curator invocations.  The curator
call for the i-th flattened topic is abstracted as `curate i`; `Except.error`
is an exception escaping that call (the loop body as written handles any
thrown error via the surrounding `catch`).  The fixed 6000 ms inter-topic
throttle has no observable effect beyond time and is not tracked. -/

inductive Stage where
  | idle
  | planning
  | curating
  | complete
  | error
deriving DecidableEq

structure AgentStatus where
  stage : Stage
  message : String
  progress : Nat
  currentTask : Option String
deriving DecidableEq

structure CTopic where
  id : String
  title : String
  description : String
  actionableStep : String
  curatedContent : Option CuratedContent
deriving DecidableEq

structure CModule where
  title : String
  topics : List CTopic
deriving DecidableEq

structure CCurriculum where
  id : String
  createdAt : Int
  title : String
  description : String
  modules : List CModule
deriving DecidableEq

structure RunTrace where
  statuses : List AgentStatus
  curricula : List CCurriculum
  curatorCalls : Nat
deriving DecidableEq

/-- `allTopics`: the flattened `(topic, moduleIndex, topicIndex)` triples in
module-major order. -/
def flatTopicsAux (mIdx : Nat) : Nat → List CTopic → List (CTopic × Nat × Nat)
  | _, [] => []
  | tIdx, tp :: rest => (tp, mIdx, tIdx) :: flatTopicsAux mIdx (tIdx + 1) rest

def flattenAux : Nat → List CModule → List (CTopic × Nat × Nat)
  | _, [] => []
  | mIdx, md :: rest => flatTopicsAux mIdx 0 md.topics ++ flattenAux (mIdx + 1) rest

def flattenTopics (mods : List CModule) : List (CTopic × Nat × Nat) :=
  flattenAux 0 mods

def listModify {α : Type} : List α → Nat → (α → α) → List α
  | [], _, _ => []
  | a :: as, 0, f => f a :: as
  | a :: as, n + 1, f => a :: listModify as n f

/-- `enrichedModules[m].topics[t] = {...topic, curatedContent}`. -/
def setTopicContent (mods : List CModule) (m t : Nat) (top : CTopic)
    (c : CuratedContent) : List CModule :=
  listModify mods m (fun md =>
    { md with topics := listModify md.topics t (fun _ => { top with curatedContent := some c }) })

def lookupTopic (mods : List CModule) (m t : Nat) : Option CTopic :=
  match mods[m]? with
  | some md => md.topics[t]?
  | none => none

def topicsLen (mods : List CModule) (m : Nat) : Nat :=
  match mods[m]? with
  | some md => md.topics.length
  | none => 0

/-- `Math.round((i / totalTopics) * 100)` over the rationals (the float
computation agrees on all values reachable here). -/
def jsRoundPct (i total : Nat) : Nat :=
  (200 * i + total) / (2 * total)

def planningStatus : AgentStatus :=
  { stage := Stage.planning, message := "Planner Agent is designing the syllabus..."
    progress := 0, currentTask := none }

def curatingStartStatus : AgentStatus :=
  { stage := Stage.curating, message := "Curator Agent is finding resources..."
    progress := 0, currentTask := none }

def curatingStatus (mIdx i total : Nat) (topicTitle : String) : AgentStatus :=
  { stage := Stage.curating
    message := "Curating resources for Module " ++ toString (mIdx + 1) ++ "..."
    progress := jsRoundPct i total
    currentTask := some topicTitle }

def completeStatus : AgentStatus :=
  { stage := Stage.complete, message := "Curriculum ready!", progress := 100
    currentTask := none }

/-- The `catch` branch of `startGeneration`. -/
def controllerErrorStatus : AgentStatus :=
  { stage := Stage.error
    message := "An error occurred while generating the curriculum. Please check your API key or try again."
    progress := 0, currentTask := none }

def pushStatus (tr : RunTrace) (s : AgentStatus) : RunTrace :=
  { tr with statuses := tr.statuses ++ [s] }

def pushCurriculum (tr : RunTrace) (c : CCurriculum) : RunTrace :=
  { tr with curricula := tr.curricula ++ [c] }

/-- The sequential curation loop.  Each iteration publishes a curating status,
invokes the curator, merges the result into the module list and publishes the
updated document; an escaping exception publishes the error status and stops. -/
def loopGo (curate : Nat → Except JSError CuratedContent) (plan : CCurriculum)
    (total : Nat) : List (CTopic × Nat × Nat) → Nat → List CModule → RunTrace → RunTrace
  | [], _, _, tr => pushStatus tr completeStatus
  | (top, m, t) :: rest, i, mods, tr =>
    let tr1 := pushStatus tr (curatingStatus m i total top.title)
    match curate i with
    | Except.error _ =>
      pushStatus { tr1 with curatorCalls := tr1.curatorCalls + 1 } controllerErrorStatus
    | Except.ok c =>
      let mods2 := setTopicContent mods m t top c
      let tr2 := pushCurriculum { tr1 with curatorCalls := tr1.curatorCalls + 1 }
        { plan with modules := mods2 }
      loopGo curate plan total rest (i + 1) mods2 tr2

/-- `startGeneration`: planner stage, then the curation loop.  `planner` is
the outcome of `runPlannerAgent` (an `Except.error` is an exception caught by
the surrounding `catch`). -/
def startGeneration (planner : Except JSError CCurriculum)
    (curate : Nat → Except JSError CuratedContent) : RunTrace :=
  let tr0 : RunTrace := { statuses := [planningStatus], curricula := [], curatorCalls := 0 }
  match planner with
  | Except.error _ => pushStatus tr0 controllerErrorStatus
  | Except.ok plan =>
    let tr1 := pushStatus (pushCurriculum tr0 plan) curatingStartStatus
    loopGo curate plan (flattenTopics plan.modules).length (flattenTopics plan.modules)
      0 plan.modules tr1

/-- The module list after the first `k` loop iterations succeed (a proof
device for stating what the loop has merged so far). -/
def modsAfter (curate : Nat → Except JSError CuratedContent) :
    List (CTopic × Nat × Nat) → Nat → List CModule → Nat → List CModule
  | _, _, mods, 0 => mods
  | [], _, mods, _ + 1 => mods
  | (top, m, t) :: rest, i, mods, k + 1 =>
    match curate i with
    | Except.ok c => modsAfter curate rest (i + 1) (setTopicContent mods m t top c) k
    | Except.error _ => mods

/-! ### Concrete instances used by counterexamples and witnesses -/

/-- Modelled from the spec, for comparison with `getYouTubeThumbnail`: the
claim derives a thumbnail "exactly when the URI matches a YouTube
watch/shorts/embed/v/youtu.be pattern"; this is the (generous) test that one
of those five listed pattern strings occurs in the URI at all. -/
def specListedYouTubePattern (url : String) : Bool :=
  strContains url "watch?v=" || strContains url "shorts/" ||
  strContains url "embed/" || strContains url "v/" || strContains url "youtu.be/"

/-- A hostname oracle that accepts every URI (models a run in which
`new URL` succeeds everywhere, as it does on all URIs appearing below). -/
def demoEnv : CuratorEnv :=
  { urlHostname := fun u =>
      if strStarts u "https://www.youtube.com" then some "www.youtube.com"
      else if strStarts u "https://en.wikipedia.org" then some "en.wikipedia.org"
      else if strStarts u "https://example.com" then some "example.com"
      else none
    parseEnrich := fun _ => none }

def mkChunk (u t : String) : Chunk :=
  { web := some { uri := some u, title := some t } }

/-- Three grounding citations that are all the bare YouTube homepage. -/
def allRootResp : GenResponse :=
  { groundingChunks :=
      [ mkChunk "https://www.youtube.com/" "YouTube"
      , mkChunk "https://www.youtube.com/" "YouTube"
      , mkChunk "https://www.youtube.com/" "YouTube" ]
    text := none }

/-- Two identical grounding citations (duplicate URIs). -/
def dupResp : GenResponse :=
  { groundingChunks :=
      [ mkChunk "https://example.com/a" "A", mkChunk "https://example.com/a" "A" ]
    text := none }

/-- Six distinct grounding citations. -/
def sixResp : GenResponse :=
  { groundingChunks :=
      [ mkChunk "https://example.com/r1" "R1", mkChunk "https://example.com/r2" "R2"
      , mkChunk "https://example.com/r3" "R3", mkChunk "https://example.com/r4" "R4"
      , mkChunk "https://example.com/r5" "R5", mkChunk "https://example.com/r6" "R6" ]
    text := none }

/-- One ordinary grounding citation. -/
def oneResp : GenResponse :=
  { groundingChunks := [mkChunk "https://example.com/a" "A"], text := none }

/-- The spec's scenario: homepage citation plus a watch URL plus a third
result. -/
def ytScenarioResp : GenResponse :=
  { groundingChunks :=
      [ mkChunk "https://www.youtube.com/" "YouTube"
      , mkChunk "https://www.youtube.com/watch?v=abc12345678" "SQL Tutorial - YouTube"
      , mkChunk "https://en.wikipedia.org/wiki/SQL" "SQL - Wikipedia" ]
    text := none }

/-- A rate-limit-shaped error (HTTP 429 status). -/
def e429 : JSError :=
  { status := some (JSVal.num 429), code := none, message := none }

/-- A rate-limit-shaped error (RESOURCE_EXHAUSTED status). -/
def eExhausted : JSError :=
  { status := some (JSVal.str "RESOURCE_EXHAUSTED"), code := none, message := none }

/-- An error with no rate-limit signature. -/
def eBoom : JSError :=
  { status := none, code := none, message := some "boom" }

/-- The parse oracle for the planner counterexample: exactly the value
`JSON.parse` returns on the JSON text of an object whose only key is an empty
`modules` array. -/
def cxPlannerText : String := "\x7b\"modules\": []\x7d"

def cxPlannerParse : String → Option JValue := fun s =>
  if s = cxPlannerText then some (JValue.obj [("modules", JValue.arr [])]) else none

/-- A two-module, one-topic-each plan for the controller witness. -/
def demoTopic (n : String) : CTopic :=
  { id := n, title := "T" ++ n, description := "D" ++ n, actionableStep := "A" ++ n
    curatedContent := none }

def demoPlan : CCurriculum :=
  { id := "c1", createdAt := 0, title := "Plan", description := "Demo"
    modules :=
      [ { title := "M1", topics := [demoTopic "m0-t0"] }
      , { title := "M2", topics := [demoTopic "m1-t0"] } ] }

def demoContent : CuratedContent :=
  { summary := "S", resources := [] }

/-- Curator oracle for the controller witness: first call succeeds, second
throws. -/
def demoCurate : Nat → Except JSError CuratedContent := fun i =>
  if i = 0 then Except.ok demoContent else Except.error eBoom

/-! ## Theorems -/

/-- C6 counterexample: `normalizeUrl` does not compute the spec's rule.  The
code strips the scheme and `www.` case-sensitively *before* lower-casing, so
an upper-case scheme is not stripped, while the spec's rule (lower-case first,
then strip) removes it. -/
theorem normalizeUrl_differs_from_spec_rule :
    normalizeUrl "HTTP://Example.com/X" = "http://example.com/x" ∧
    specNormalizeUrl "HTTP://Example.com/X" = "example.com/x" ∧
    normalizeUrl "HTTP://Example.com/X" ≠ specNormalizeUrl "HTTP://Example.com/X" :=
  ⟨rfl, rfl, by decide⟩

/-- C6 amended: `normalizeUrl` strips a leading lower-case `http://` or
`https://` and a leading lower-case `www.`, strips one trailing slash, and
lower-cases the remainder; it does collapse the three example URIs of the
spec to the single key `example.com/x` (but inputs with an upper-case scheme
or `www.` are not stripped — see the counterexample). -/
theorem normalizeUrl_collapses_examples :
    normalizeUrl "http://Example.com/X" = "example.com/x" ∧
    normalizeUrl "https://www.example.com/x" = "example.com/x" ∧
    normalizeUrl "example.com/x" = "example.com/x" :=
  ⟨rfl, rfl, rfl⟩

/-- C7 counterexample: `cleanTitle` is not idempotent.  Each application
strips at most one trailing `" - YouTube"`, so a title ending in the suffix
twice cleans to a string that still ends in the suffix, and a second
application changes it again. -/
theorem cleanTitle_not_idempotent :
    cleanTitle (some "X - YouTube - YouTube") "https://example.com/a" "Topic" =
      "X - YouTube" ∧
    cleanTitle (some (cleanTitle (some "X - YouTube - YouTube") "https://example.com/a" "Topic"))
        "https://example.com/a" "Topic" = "X" ∧
    cleanTitle (some (cleanTitle (some "X - YouTube - YouTube") "https://example.com/a" "Topic"))
        "https://example.com/a" "Topic" ≠
      cleanTitle (some "X - YouTube - YouTube") "https://example.com/a" "Topic" :=
  ⟨rfl, rfl, by decide⟩

/-- C7 amended: `cleanTitle` is not idempotent in general — each application
strips at most one trailing site suffix (see the counterexample).  It is
idempotent whenever its first result is a fixed point of the cleaning
pipeline: non-empty, trim-stable, carrying no further strippable suffix, and
not a generic placeholder.  These conditions are sufficient but not
necessary: a generic result can also be idempotent when the synthesized
fallback regenerates it verbatim, as for the title "Http Guide" cleaned for
topic "Http" (second conjunct). -/
theorem cleanTitle_idem_on_fixed_points :
    (∀ (t : Option String) (uri topicTitle : String),
      cleanTitle t uri topicTitle ≠ "" →
      strTrim (cleanTitle t uri topicTitle) = cleanTitle t uri topicTitle →
      stripKnownSuffixes (cleanTitle t uri topicTitle) = cleanTitle t uri topicTitle →
      isGenericTitle (cleanTitle t uri topicTitle) = false →
      cleanTitle (some (cleanTitle t uri topicTitle)) uri topicTitle =
        cleanTitle t uri topicTitle) ∧
    (isGenericTitle (cleanTitle (some "Http Guide") "https://example.com/a" "Http") =
        true ∧
      cleanTitle (some (cleanTitle (some "Http Guide") "https://example.com/a" "Http"))
          "https://example.com/a" "Http" =
        cleanTitle (some "Http Guide") "https://example.com/a" "Http") := by
  constructor
  · intro t uri topicTitle h0 h1 h2 h3
    generalize hc : cleanTitle t uri topicTitle = c at h0 h1 h2 h3 ⊢
    simp [cleanTitle, h0, h1, h2, h3]
  · exact ⟨rfl, rfl⟩

theorem cleanTitle_idem_on_fixed_points_witness :
    cleanTitle (some "Hello") "https://example.com/a" "T" ≠ "" ∧
    strTrim (cleanTitle (some "Hello") "https://example.com/a" "T") =
      cleanTitle (some "Hello") "https://example.com/a" "T" ∧
    stripKnownSuffixes (cleanTitle (some "Hello") "https://example.com/a" "T") =
      cleanTitle (some "Hello") "https://example.com/a" "T" ∧
    isGenericTitle (cleanTitle (some "Hello") "https://example.com/a" "T") = false ∧
    cleanTitle (some (cleanTitle (some "Hello") "https://example.com/a" "T"))
        "https://example.com/a" "T" =
      cleanTitle (some "Hello") "https://example.com/a" "T" :=
  ⟨by decide, by decide, by decide, by decide,
   cleanTitle_idem_on_fixed_points.1 (some "Hello") "https://example.com/a" "T"
     (by decide) (by decide) (by decide) (by decide)⟩

/-- C2: `runCuratorAgent` is a total function of the generation outcome (it
can never propagate an exception), and when the generation call itself threw
(after retries were exhausted) the result is exactly one Google-search
resource together with the summary stating that curation failed. -/
theorem runCuratorAgent_error_fallback (env : CuratorEnv) (topicTitle context : String)
    (e : JSError) :
    runCuratorAgent env topicTitle context (Except.error e) =
      { summary := "Could not curate specific resources due to an error."
        resources :=
          [ { title := "Search \"" ++ topicTitle ++ "\" on Google"
              uri := "https://www.google.com/search?q=" ++ encodeURIComponent topicTitle
              source := some "google.com"
              thumbnail := none
              description := some "Manual search fallback." } ] } ∧
    (runCuratorAgent env topicTitle context (Except.error e)).resources.length = 1 :=
  ⟨rfl, rfl⟩

/-- C1 counterexample: when every grounding citation is a bare platform
homepage and there are more than two of them, the root-domain filter empties
the resource list — the guard the claim asserts does not exist. -/
theorem curator_resources_can_be_empty :
    (runCuratorAgent demoEnv "SQL" "ctx" (Except.ok allRootResp)).resources = [] ∧
    (runCuratorAgent demoEnv "SQL" "ctx" (Except.ok allRootResp)).resources.length = 0 :=
  ⟨rfl, rfl⟩

/-- C5 counterexample: the reconciler performs no deduplication.  Two
identical grounding citations yield two resources whose URIs normalize to the
same key. -/
theorem curator_duplicate_normalized_uris :
    (runCuratorAgent demoEnv "T" "C" (Except.ok dupResp)).resources.map
        (fun r => normalizeUrl r.uri) = ["example.com/a", "example.com/a"] ∧
    (runCuratorAgent demoEnv "T" "C" (Except.ok dupResp)).resources.length = 2 :=
  ⟨rfl, rfl⟩

/-- C8 counterexample: the summary interpolates the resource count *before*
`slice(0, 5)`; with six grounded resources the summary says 6 while the
returned list has 5 entries. -/
theorem curator_summary_overcounts :
    (runCuratorAgent demoEnv "T" "C" (Except.ok sixResp)).summary =
      "Here are 6 curated resources for T." ∧
    (runCuratorAgent demoEnv "T" "C" (Except.ok sixResp)).resources.length = 5 :=
  ⟨rfl, rfl⟩

/-- C3 counterexample: the planner post-processing never checks `title` or
`description` (or any per-topic field) — a parsed object whose only key is an
empty `modules` array is accepted, so the "error exactly when a required
schema field is absent" claim fails in the only-if direction. -/
theorem runPlannerAgent_accepts_missing_title :
    isOkE (runPlannerAgent (some cxPlannerText) cxPlannerParse "id0" 0) = true ∧
    getField (JValue.obj [("modules", JValue.arr [])]) "title" = none ∧
    getField (JValue.obj [("modules", JValue.arr [])]) "description" = none :=
  ⟨rfl, rfl, rfl⟩

/-- C10 counterexample: the matcher also accepts the `u/<word-char>/`
alternative of the source regex, which is not among the claim's listed
watch/shorts/embed/v/youtu.be patterns — this URI contains none of the five
listed pattern strings (not even a letter `v`) yet a thumbnail is derived. -/
theorem thumbnail_without_listed_pattern :
    getYouTubeThumbnail "https://www.youtube.com/u/c/abcdefghijk" =
      some "https://img.youtube.com/vi/abcdefghijk/hqdefault.jpg" ∧
    specListedYouTubePattern "https://www.youtube.com/u/c/abcdefghijk" = false :=
  ⟨rfl, rfl⟩

/-- C10 amended: thumbnails are derived exactly by the source regex (rightmost
`youtu.be/`, `v/`, `u/<word-char>/`, `embed/`, `watch?v=`, `&v=` or `shorts/`
occurrence followed by an 11-character id).  The spec's scenario holds: with
the bare YouTube homepage, a watch URL and a third citation grounded, the
homepage is filtered out and the watch entry remains with the derived
`hqdefault` thumbnail; a URI matching no alternative (e.g. a plain Vimeo
link) gets no thumbnail. -/
theorem curator_youtube_scenario :
    runCuratorAgent demoEnv "SQL" "ctx" (Except.ok ytScenarioResp) =
      { summary := "Here are 2 curated resources for SQL."
        resources :=
          [ { title := "SQL Tutorial"
              uri := "https://www.youtube.com/watch?v=abc12345678"
              source := some "youtube.com"
              thumbnail := some "https://img.youtube.com/vi/abc12345678/hqdefault.jpg"
              description := some "Recommended resource found via Google Search." }
          , { title := "SQL"
              uri := "https://en.wikipedia.org/wiki/SQL"
              source := some "en.wikipedia.org"
              thumbnail := none
              description := some "Recommended resource found via Google Search." } ] } ∧
    getYouTubeThumbnail "https://vimeo.com/76979871" = none ∧
    getYouTubeThumbnail "https://www.youtube.com/" = none :=
  ⟨rfl, rfl, rfl⟩

theorem retryGo_zero {α : Type} (fn : Nat → Except JSError α) (attempt delay : Nat) :
    retryGo fn attempt 0 delay = (fn attempt, []) := rfl

theorem retryGo_succ {α : Type} (fn : Nat → Except JSError α) (attempt r delay : Nat) :
    retryGo fn attempt (r + 1) delay =
      match fn attempt with
      | Except.ok a => (Except.ok a, [])
      | Except.error e =>
        if isRateLimitError e then
          ((retryGo fn (attempt + 1) r (delay * 2)).1,
            delay :: (retryGo fn (attempt + 1) r (delay * 2)).2)
        else (Except.error e, []) := rfl

/-- C4: with the defaults (3 retries, 2000 ms initial delay) the backoff
wrapper (i) returns the success of an operation that fails twice with a
rate-limit-shaped error and then succeeds, after exactly the two waits 2000 ms
and 4000 ms; (ii) propagates a non-rate-limit error immediately, with no wait
and no retry; and (iii) when the operation keeps failing with the same
rate-limit error until the attempt budget is exhausted, propagates that error
unchanged after the three waits 2000, 4000 and 8000 ms. -/
theorem retryWithBackoff_spec {α : Type} :
    (∀ (fn : Nat → Except JSError α) (e : JSError) (v : α),
      isRateLimitError e = true →
      fn 0 = Except.error e → fn 1 = Except.error e → fn 2 = Except.ok v →
      retryWithBackoff fn 3 2000 = (Except.ok v, [2000, 4000])) ∧
    (∀ (fn : Nat → Except JSError α) (e : JSError),
      isRateLimitError e = false →
      fn 0 = Except.error e →
      retryWithBackoff fn 3 2000 = (Except.error e, [])) ∧
    (∀ (fn : Nat → Except JSError α) (e : JSError),
      isRateLimitError e = true →
      fn 0 = Except.error e → fn 1 = Except.error e → fn 2 = Except.error e →
      fn 3 = Except.error e →
      retryWithBackoff fn 3 2000 = (Except.error e, [2000, 4000, 8000])) := by
  have e3 : (3 : Nat) = 2 + 1 := rfl
  have e2 : (2 : Nat) = 1 + 1 := rfl
  have e1 : (1 : Nat) = 0 + 1 := rfl
  refine ⟨?_, ?_, ?_⟩
  · intro fn e v hrl h0 h1 h2
    rw [retryWithBackoff, e3, retryGo_succ, h0]
    simp only [hrl, if_true]
    rw [e2, retryGo_succ, h1]
    simp only [hrl, if_true]
    rw [e1, retryGo_succ, h2]
  · intro fn e hrl h0
    rw [retryWithBackoff, e3, retryGo_succ, h0]
    simp only [hrl, if_false, Bool.false_eq_true]
  · intro fn e hrl h0 h1 h2 h3
    rw [retryWithBackoff, e3, retryGo_succ, h0]
    simp only [hrl, if_true]
    rw [e2, retryGo_succ, h1]
    simp only [hrl, if_true]
    rw [e1, retryGo_succ, h2]
    simp only [hrl, if_true]
    rw [retryGo_zero, h3]

theorem retryWithBackoff_spec_witness :
    isRateLimitError e429 = true ∧
    isRateLimitError eBoom = false ∧
    isRateLimitError eExhausted = true ∧
    retryWithBackoff (fun i => if i < 2 then Except.error e429 else Except.ok (37 : Int))
      3 2000 = (Except.ok 37, [2000, 4000]) ∧
    retryWithBackoff (fun _ => (Except.error eBoom : Except JSError Int)) 3 2000 =
      (Except.error eBoom, []) ∧
    retryWithBackoff (fun _ => (Except.error eExhausted : Except JSError Int)) 3 2000 =
      (Except.error eExhausted, [2000, 4000, 8000]) :=
  ⟨by decide, by decide, by decide,
   retryWithBackoff_spec.1 _ e429 37 (by decide) rfl rfl rfl,
   retryWithBackoff_spec.2.1 _ eBoom (by decide) rfl,
   retryWithBackoff_spec.2.2 _ eExhausted (by decide) rfl rfl rfl rfl⟩

theorem withFallback_ne_nil (topicTitle context : String) (rs : List ResourceLink) :
    withFallback topicTitle context rs ≠ [] := by
  unfold withFallback
  cases rs with
  | nil => simp
  | cons r rs => simp

theorem preFilterResources_ne_nil (env : CuratorEnv) (topicTitle context : String)
    (resp : GenResponse) (pre : List ResourceLink)
    (h : preFilterResources env topicTitle context resp = some pre) : pre ≠ [] := by
  unfold preFilterResources at h
  cases hg : groundedResources env topicTitle resp.groundingChunks with
  | none => rw [hg] at h; cases h
  | some rs =>
    rw [hg] at h
    injection h with h
    rw [← h]
    exact withFallback_ne_nil _ _ _

theorem filter_not_eq_nil_iff {α : Type} (p : α → Bool) (l : List α) :
    l.filter (fun a => !p a) = [] ↔ l.all p = true := by
  induction l with
  | nil => simp
  | cons a as ih =>
    simp only [List.filter_cons, List.all_cons]
    cases h : p a <;> simp [h, ih]

/-- C1 amended: on every path the returned resource list has at most 5
entries, and it is empty exactly when the root-domain filter removed every
candidate (which requires more than two candidates, all of them bare platform
homepages) — the claimed guard against that case does not exist, so "length at
least 1" fails precisely there. -/
theorem curator_resources_bounded (env : CuratorEnv) (topicTitle context : String)
    (gen : Except JSError GenResponse) :
    (runCuratorAgent env topicTitle context gen).resources.length ≤ 5 ∧
    ((runCuratorAgent env topicTitle context gen).resources.length = 0 ↔
      curatorRootEmptied env topicTitle context gen = true) := by
  cases gen with
  | error e => simp [runCuratorAgent, curatorErrorContent, curatorRootEmptied]
  | ok resp =>
    cases hpre : preFilterResources env topicTitle context resp with
    | none => simp [runCuratorAgent, curatorTry, curatorRootEmptied, hpre, curatorErrorContent]
    | some pre =>
      have hne : pre ≠ [] := preFilterResources_ne_nil env topicTitle context resp pre hpre
      simp only [runCuratorAgent, curatorTry, curatorRootEmptied, hpre, List.length_take]
      constructor
      · exact Nat.min_le_left _ _
      · unfold rootFiltered
        by_cases h2 : 2 < pre.length
        · simp only [if_pos h2]
          rw [Nat.min_eq_zero_iff]
          simp only [OfNat.ofNat_ne_zero, false_or]
          rw [List.length_eq_zero, filter_not_eq_nil_iff]
          simp [h2]
        · simp only [if_neg h2]
          rw [Nat.min_eq_zero_iff]
          simp only [OfNat.ofNat_ne_zero, false_or]
          rw [List.length_eq_zero]
          simp [hne, h2]

theorem updateFirst_map_invariant {α β : Type} (g : α → β) (p : α → Bool) (f : α → α)
    (h : ∀ a, g (f a) = g a) (l : List α) :
    (updateFirst l p f).map g = l.map g := by
  induction l with
  | nil => rfl
  | cons a as ih =>
    unfold updateFirst
    by_cases hp : p a = true
    · simp [hp, h a]
    · simp only [hp]
      simp [ih]

theorem applyEnrichItem_map_uri (topicTitle : String) (rs : List ResourceLink)
    (item : EnrichItem) :
    (applyEnrichItem topicTitle rs item).map ResourceLink.uri =
      rs.map ResourceLink.uri := by
  unfold applyEnrichItem
  cases item.uri with
  | none => rfl
  | some u =>
    cases item.description with
    | none => rfl
    | some d =>
      by_cases hc : (!(u = "") && !(d = "")) = true
      · simp only [hc, if_true]
        apply updateFirst_map_invariant
        intro a
        rfl
      · simp only [hc]
        simp

theorem foldl_applyEnrichItem_map_uri (topicTitle : String) (items : List EnrichItem)
    (rs : List ResourceLink) :
    (items.foldl (applyEnrichItem topicTitle) rs).map ResourceLink.uri =
      rs.map ResourceLink.uri := by
  induction items generalizing rs with
  | nil => rfl
  | cons item rest ih =>
    simp only [List.foldl_cons]
    rw [ih, applyEnrichItem_map_uri]

/-- C5 amended: the reconciler does not deduplicate — duplicate grounding
citations survive (see the counterexample).  The normalized URI is used only
as the key for matching model-proposed enrichment items onto the grounded
list: enrichment updates descriptions/titles of existing entries in place and
never changes any URI, never reorders and never adds or removes an entry, so
only grounded URIs ever appear in the final list. -/
theorem enrichStep_preserves_uris (env : CuratorEnv) (topicTitle : String)
    (text : Option String) (rs : List ResourceLink) :
    (enrichStep env topicTitle text rs).map ResourceLink.uri =
      rs.map ResourceLink.uri := by
  unfold enrichStep
  cases text with
  | none => rfl
  | some t =>
    by_cases ht : t = ""
    · simp [ht]
    · simp only [ht, if_neg, if_false]
      cases env.parseEnrich (strTrim (stripFences t)) with
      | none => simp
      | some items => simp [foldl_applyEnrichItem_map_uri]

/-- C8 amended: the summary's count N is the number of resources after root
filtering but *before* truncation to 5, and the returned list has
min N 5 entries — so the summary matches the returned length exactly when at
most five resources survive filtering (the counterexample shows N = 6 with 5
returned). -/
theorem curator_summary_count (env : CuratorEnv) (topicTitle context : String)
    (resp : GenResponse) (content : CuratedContent)
    (h : curatorTry env topicTitle context resp = some content) :
    ∃ pre, preFilterResources env topicTitle context resp = some pre ∧
      content.summary = "Here are " ++ toString (rootFiltered pre).length ++
        " curated resources for " ++ topicTitle ++ "." ∧
      content.resources.length = min (rootFiltered pre).length 5 := by
  unfold curatorTry at h
  cases hpre : preFilterResources env topicTitle context resp with
  | none => rw [hpre] at h; cases h
  | some pre =>
    rw [hpre] at h
    injection h with h
    refine ⟨pre, rfl, ?_, ?_⟩
    · rw [← h]
    · rw [← h]
      simp [List.length_take, Nat.min_comm]

theorem curator_summary_count_witness :
    curatorTry demoEnv "T" "C" oneResp = some
      { summary := "Here are 1 curated resources for T."
        resources :=
          [ { title := "A"
              uri := "https://example.com/a"
              source := some "example.com"
              thumbnail := none
              description := some "Recommended resource found via Google Search." } ] } ∧
    ∃ pre, preFilterResources demoEnv "T" "C" oneResp = some pre ∧
      ("Here are 1 curated resources for T." : String) =
        "Here are " ++ toString (rootFiltered pre).length ++
          " curated resources for " ++ "T" ++ "." ∧
      ([ { title := "A"
           uri := "https://example.com/a"
           source := some "example.com"
           thumbnail := none
           description := some "Recommended resource found via Google Search." } ] :
         List ResourceLink).length = min (rootFiltered pre).length 5 :=
  ⟨rfl, curator_summary_count demoEnv "T" "C" oneResp _ rfl⟩

theorem processModules_isSome_eq (ms : List JValue) (mIdx : Nat) :
    (processModules mIdx ms).isSome =
      ms.all (fun m =>
        match getField m "topics" with
        | some (JValue.arr _) => true
        | _ => false) := by
  induction ms generalizing mIdx with
  | nil => rfl
  | cons m rest ih =>
    simp only [processModules, List.all_cons, processModule]
    cases hm : getField m "topics" with
    | none => simp
    | some v =>
      cases v with
      | arr ts =>
        simp only [Bool.true_and]
        rw [← ih (mIdx + 1)]
        cases processModules (mIdx + 1) rest <;> simp
      | null => simp
      | bool b => simp
      | num n => simp
      | str s => simp
      | obj fs => simp

/-- C3 amended: the planner surfaces an error exactly when the response has no
(non-empty) text, the fence-stripped text fails to parse as JSON, the parsed
value lacks an array `modules` property, or some module lacks an array
`topics` property.  Missing `title`, `description` or per-topic fields are
*not* checked and do not cause an error (see the counterexample) — the schema
sent with the request constrains the model, not the parsing. -/
theorem runPlannerAgent_ok_iff (text : Option String) (parse : String → Option JValue)
    (newId : String) (now : Int) :
    isOkE (runPlannerAgent text parse newId now) =
      (match text with
       | none => false
       | some t =>
         if t = "" then false
         else
           match parse (strTrim (stripFences t)) with
           | none => false
           | some v => plannerShapeOk v) := by
  cases text with
  | none => rfl
  | some t =>
    by_cases ht : t = ""
    · simp [runPlannerAgent, ht, isOkE]
    · simp only [runPlannerAgent, ht, if_false, Bool.false_eq_true]
      cases hp : parse (strTrim (stripFences t)) with
      | none => rfl
      | some v =>
        simp only [plannerShapeOk]
        cases hm : getField v "modules" with
        | none => rfl
        | some mv =>
          cases mv with
          | arr ms =>
            show isOkE
                ((match processModules 0 ms with
                  | some pmods =>
                    Except.ok { source := v, id := newId, createdAt := now, modules := pmods }
                  | none => Except.error PlannerError.badShape) :
                  Except PlannerError PCurriculum) =
              ms.all (fun m =>
                match getField m "topics" with
                | some (JValue.arr _) => true
                | _ => false)
            rw [← processModules_isSome_eq ms 0]
            cases processModules 0 ms <;> rfl
          | null => rfl
          | bool b => rfl
          | num n => rfl
          | str s => rfl
          | obj fs => rfl

theorem listModify_length {α : Type} (l : List α) (n : Nat) (f : α → α) :
    (listModify l n f).length = l.length := by
  induction l generalizing n with
  | nil => rfl
  | cons a as ih => cases n <;> simp [listModify, ih]

theorem listModify_get_self {α : Type} (l : List α) (n : Nat) (f : α → α) :
    (listModify l n f)[n]? = (l[n]?).map f := by
  induction l generalizing n with
  | nil => rfl
  | cons a as ih =>
    cases n with
    | zero => simp [listModify]
    | succ n => simpa [listModify] using ih n

theorem listModify_get_ne {α : Type} (l : List α) (n m : Nat) (f : α → α) (h : n ≠ m) :
    (listModify l n f)[m]? = l[m]? := by
  induction l generalizing n m with
  | nil => rfl
  | cons a as ih =>
    cases n with
    | zero =>
      cases m with
      | zero => exact absurd rfl h
      | succ m => simp [listModify]
    | succ n =>
      cases m with
      | zero => simp [listModify]
      | succ m => simpa [listModify] using ih n m (by omega)

theorem setTopicContent_length (mods : List CModule) (m t : Nat) (top : CTopic)
    (c : CuratedContent) :
    (setTopicContent mods m t top c).length = mods.length :=
  listModify_length mods m _

theorem topicsLen_setTopicContent (mods : List CModule) (m t : Nat) (top : CTopic)
    (c : CuratedContent) (m' : Nat) :
    topicsLen (setTopicContent mods m t top c) m' = topicsLen mods m' := by
  unfold topicsLen setTopicContent
  by_cases h : m = m'
  · subst h
    rw [listModify_get_self]
    cases mods[m]? with
    | none => rfl
    | some md => simp [listModify_length]
  · rw [listModify_get_ne _ _ _ _ h]

theorem lookupTopic_set_self (mods : List CModule) (m t : Nat) (top : CTopic)
    (c : CuratedContent) (ht : t < topicsLen mods m) :
    lookupTopic (setTopicContent mods m t top c) m t =
      some { top with curatedContent := some c } := by
  unfold lookupTopic setTopicContent
  rw [listModify_get_self]
  cases hmd : mods[m]? with
  | none => simp [topicsLen, hmd] at ht
  | some md =>
    simp only [Option.map_some']
    rw [listModify_get_self]
    cases hg : md.topics[t]? with
    | none =>
      rw [List.getElem?_eq_none_iff] at hg
      simp [topicsLen, hmd] at ht
      omega
    | some tp => rfl

theorem lookupTopic_set_ne (mods : List CModule) (m t : Nat) (top : CTopic)
    (c : CuratedContent) (m' t' : Nat) (h : (m, t) ≠ (m', t')) :
    lookupTopic (setTopicContent mods m t top c) m' t' = lookupTopic mods m' t' := by
  unfold lookupTopic setTopicContent
  by_cases hm : m = m'
  · subst hm
    have htt : t ≠ t' := by
      intro he
      exact h (by rw [he])
    rw [listModify_get_self]
    cases mods[m]? with
    | none => rfl
    | some md =>
      simp only [Option.map_some']
      rw [listModify_get_ne _ _ _ _ htt]
  · rw [listModify_get_ne _ _ _ _ hm]

theorem flatTopicsAux_mem (mIdx : Nat) (tops : List CTopic) (t0 : Nat)
    (x : CTopic × Nat × Nat) :
    x ∈ flatTopicsAux mIdx t0 tops ↔
      ∃ dt, tops[dt]? = some x.1 ∧ x.2 = (mIdx, t0 + dt) := by
  induction tops generalizing t0 with
  | nil => simp [flatTopicsAux]
  | cons tp rest ih =>
    simp only [flatTopicsAux, List.mem_cons, ih (t0 + 1)]
    constructor
    · intro h
      cases h with
      | inl he =>
        exact ⟨0, by rw [he]; simp, by rw [he]; simp⟩
      | inr he =>
        obtain ⟨dt, h1, h2⟩ := he
        exact ⟨dt + 1, by simpa using h1, by rw [h2]; ring_nf⟩
    · intro h
      obtain ⟨dt, h1, h2⟩ := h
      cases dt with
      | zero =>
        left
        simp only [List.getElem?_cons_zero, Option.some.injEq] at h1
        obtain ⟨x1, x2⟩ := x
        simp only at h1 h2
        rw [h1, h2]
        simp
      | succ dt =>
        right
        refine ⟨dt, by simpa using h1, by rw [h2]; ring_nf⟩

theorem flattenAux_mem (mods : List CModule) (m0 : Nat) (x : CTopic × Nat × Nat) :
    x ∈ flattenAux m0 mods ↔
      ∃ dm md, mods[dm]? = some md ∧ md.topics[x.2.2]? = some x.1 ∧
        x.2.1 = m0 + dm := by
  induction mods generalizing m0 with
  | nil => simp [flattenAux]
  | cons md0 rest ih =>
    simp only [flattenAux, List.mem_append, flatTopicsAux_mem, ih (m0 + 1)]
    constructor
    · intro h
      cases h with
      | inl he =>
        obtain ⟨dt, h1, h2⟩ := he
        refine ⟨0, md0, by simp, ?_, ?_⟩
        · rw [show x.2.2 = dt from by rw [h2]; simp] at *
          simpa using h1
        · rw [show x.2.1 = m0 from by rw [h2]]
          simp
      | inr he =>
        obtain ⟨dm, md, h1, h2, h3⟩ := he
        exact ⟨dm + 1, md, by simpa using h1, h2, by rw [h3]; ring_nf⟩
    · intro h
      obtain ⟨dm, md, h1, h2, h3⟩ := h
      cases dm with
      | zero =>
        left
        simp only [List.getElem?_cons_zero, Option.some.injEq] at h1
        subst h1
        refine ⟨x.2.2, h2, ?_⟩
        have : x.2.1 = m0 := by omega
        rw [show (0 : Nat) + x.2.2 = x.2.2 from by omega]
        rw [← this]
      | succ dm =>
        right
        exact ⟨dm, md, by simpa using h1, h2, by omega⟩

theorem flattenTopics_mem (mods : List CModule) (x : CTopic × Nat × Nat) :
    x ∈ flattenTopics mods ↔
      ∃ md, mods[x.2.1]? = some md ∧ md.topics[x.2.2]? = some x.1 := by
  rw [flattenTopics, flattenAux_mem]
  constructor
  · intro h
    obtain ⟨dm, md, h1, h2, h3⟩ := h
    have : x.2.1 = dm := by omega
    rw [this]
    exact ⟨md, h1, h2⟩
  · intro h
    obtain ⟨md, h1, h2⟩ := h
    exact ⟨x.2.1, md, h1, h2, by omega⟩

theorem flattenTopics_shape (mods : List CModule) (x : CTopic × Nat × Nat)
    (hx : x ∈ flattenTopics mods) :
    x.2.1 < mods.length ∧ x.2.2 < topicsLen mods x.2.1 := by
  rw [flattenTopics_mem] at hx
  obtain ⟨md, h1, h2⟩ := hx
  constructor
  · by_contra hlen
    rw [List.getElem?_eq_none_iff.mpr (by omega)] at h1
    cases h1
  · rw [topicsLen, h1]
    show x.2.2 < md.topics.length
    by_contra hlen
    rw [List.getElem?_eq_none_iff.mpr (by omega)] at h2
    cases h2

/-- Within one module, the flattened triples share the module index and have
strictly increasing topic indices. -/
theorem flatTopicsAux_pairwise_lex (mIdx : Nat) (tops : List CTopic) (t0 : Nat) :
    List.Pairwise
      (fun a b : CTopic × Nat × Nat =>
        a.2.1 < b.2.1 ∨ (a.2.1 = b.2.1 ∧ a.2.2 < b.2.2))
      (flatTopicsAux mIdx t0 tops) := by
  induction tops generalizing t0 with
  | nil => exact List.Pairwise.nil
  | cons tp rest ih =>
    rw [flatTopicsAux]
    refine List.Pairwise.cons ?_ (ih (t0 + 1))
    intro y hy
    rw [flatTopicsAux_mem] at hy
    obtain ⟨dt, h1, h2⟩ := hy
    right
    constructor
    · rw [h2]
    · rw [h2]
      show t0 < t0 + 1 + dt
      omega

/-- The lexicographic ordering on (moduleIndex, topicIndex) pairs along the
flattened list. -/
theorem flattenAux_pairwise_lex (mods : List CModule) (m0 : Nat) :
    List.Pairwise
      (fun a b : CTopic × Nat × Nat =>
        a.2.1 < b.2.1 ∨ (a.2.1 = b.2.1 ∧ a.2.2 < b.2.2))
      (flattenAux m0 mods) := by
  induction mods generalizing m0 with
  | nil => exact List.Pairwise.nil
  | cons md rest ih =>
    rw [flattenAux, List.pairwise_append]
    refine ⟨flatTopicsAux_pairwise_lex m0 md.topics 0, ih (m0 + 1), ?_⟩
    intro a ha b hb
    rw [flatTopicsAux_mem] at ha
    rw [flattenAux_mem] at hb
    obtain ⟨dt, ha1, ha2⟩ := ha
    obtain ⟨dm, md2, hb1, hb2, hb3⟩ := hb
    left
    rw [show a.2.1 = m0 from by rw [ha2]]
    omega

theorem flattenTopics_pairwise_ne (mods : List CModule) :
    List.Pairwise (fun a b : CTopic × Nat × Nat => a.2 ≠ b.2)
      (flattenTopics mods) := by
  refine (flattenAux_pairwise_lex mods 0).imp ?_
  intro a b hab heq
  have h1 : a.2.1 = b.2.1 := by rw [heq]
  have h2 : a.2.2 = b.2.2 := by rw [heq]
  omega

theorem isOkE_true_iff {ε α : Type} (x : Except ε α) :
    isOkE x = true ↔ ∃ a, x = Except.ok a := by
  cases x <;> simp [isOkE]

theorem isOkE_false_iff {ε α : Type} (x : Except ε α) :
    isOkE x = false ↔ ∃ e, x = Except.error e := by
  cases x <;> simp [isOkE]

theorem modsAfter_untouched (curate : Nat → Except JSError CuratedContent)
    (flat : List (CTopic × Nat × Nat)) (i : Nat) (mods : List CModule) (k : Nat)
    (m t : Nat) (h : ∀ x ∈ flat, x.2 ≠ (m, t)) :
    lookupTopic (modsAfter curate flat i mods k) m t = lookupTopic mods m t := by
  induction flat generalizing i mods k with
  | nil => cases k <;> rfl
  | cons x rest ih =>
    cases k with
    | zero => rfl
    | succ k =>
      obtain ⟨top0, m0, t0⟩ := x
      show lookupTopic
          (match curate i with
           | Except.ok c => modsAfter curate rest (i + 1) (setTopicContent mods m0 t0 top0 c) k
           | Except.error _ => mods) m t = lookupTopic mods m t
      cases curate i with
      | error e => rfl
      | ok c =>
        rw [ih (i + 1) (setTopicContent mods m0 t0 top0 c) k
          (fun y hy => h y (List.mem_cons_of_mem _ hy))]
        exact lookupTopic_set_ne mods m0 t0 top0 c m t
          (h (top0, m0, t0) (List.mem_cons_self _ _))

theorem modsAfter_shape (curate : Nat → Except JSError CuratedContent)
    (flat : List (CTopic × Nat × Nat)) (i : Nat) (mods : List CModule) (k : Nat) :
    (modsAfter curate flat i mods k).length = mods.length ∧
    ∀ m, topicsLen (modsAfter curate flat i mods k) m = topicsLen mods m := by
  induction flat generalizing i mods k with
  | nil => cases k <;> exact ⟨rfl, fun m => rfl⟩
  | cons x rest ih =>
    cases k with
    | zero => exact ⟨rfl, fun m => rfl⟩
    | succ k =>
      obtain ⟨top0, m0, t0⟩ := x
      cases hcu : curate i with
      | error e => simp [modsAfter, hcu]
      | ok c =>
        simp only [modsAfter, hcu]
        obtain ⟨ihl, iht⟩ := ih (i + 1) (setTopicContent mods m0 t0 top0 c) k
        refine ⟨?_, ?_⟩
        · rw [ihl, setTopicContent_length]
        · intro m
          rw [iht m, topicsLen_setTopicContent]

theorem modsAfter_lookup (curate : Nat → Except JSError CuratedContent)
    (flat : List (CTopic × Nat × Nat)) (i : Nat) (mods : List CModule)
    (k j : Nat) (top : CTopic) (m t : Nat) (c : CuratedContent)
    (hpw : List.Pairwise (fun a b : CTopic × Nat × Nat => a.2 ≠ b.2) flat)
    (hshape : ∀ x ∈ flat, x.2.1 < mods.length ∧ x.2.2 < topicsLen mods x.2.1)
    (hjk : j < k)
    (hget : flat[j]? = some (top, m, t))
    (hc : curate (i + j) = Except.ok c)
    (hall : ∀ j', j' < k → isOkE (curate (i + j')) = true) :
    lookupTopic (modsAfter curate flat i mods k) m t =
      some { top with curatedContent := some c } := by
  induction flat generalizing i mods k j with
  | nil => cases hget
  | cons x rest ih =>
    cases k with
    | zero => omega
    | succ k =>
      obtain ⟨top0, m0, t0⟩ := x
      obtain ⟨c0, hc0⟩ := (isOkE_true_iff _).mp
        (by simpa using hall 0 (by omega))
      show lookupTopic
          (match curate i with
           | Except.ok c => modsAfter curate rest (i + 1) (setTopicContent mods m0 t0 top0 c) k
           | Except.error _ => mods) m t = some { top with curatedContent := some c }
      rw [hc0]
      cases j with
      | zero =>
        have hx : top0 = top ∧ m0 = m ∧ t0 = t := by
          have h0 := hget
          simp only [List.getElem?_cons_zero, Option.some.injEq, Prod.mk.injEq] at h0
          exact ⟨h0.1, h0.2.1, h0.2.2⟩
        obtain ⟨he1, he2, he3⟩ := hx
        subst he1
        subst he2
        subst he3
        have hcc : c0 = c := by
          rw [show i + 0 = i from rfl, hc0] at hc
          injection hc
        subst hcc
        have hne : ∀ y ∈ rest, y.2 ≠ (m0, t0) := by
          intro y hy
          exact Ne.symm ((List.pairwise_cons.mp hpw).1 y hy)
        rw [modsAfter_untouched curate rest (i + 1) _ k m0 t0 hne]
        exact lookupTopic_set_self mods m0 t0 top0 c0
          (hshape (top0, m0, t0) (List.mem_cons_self _ _)).2
      | succ j =>
        have hshape2 : ∀ y ∈ rest, y.2.1 < (setTopicContent mods m0 t0 top0 c0).length ∧
            y.2.2 < topicsLen (setTopicContent mods m0 t0 top0 c0) y.2.1 := by
          intro y hy
          rw [setTopicContent_length, topicsLen_setTopicContent]
          exact hshape y (List.mem_cons_of_mem _ hy)
        have hget2 : rest[j]? = some (top, m, t) := by simpa using hget
        have hc2 : curate ((i + 1) + j) = Except.ok c := by
          rw [show (i + 1) + j = i + (j + 1) from by omega]
          exact hc
        have hall2 : ∀ j', j' < k → isOkE (curate ((i + 1) + j')) = true := by
          intro j' hj'
          rw [show (i + 1) + j' = i + (j' + 1) from by omega]
          exact hall (j' + 1) (by omega)
        exact ih (i + 1) (setTopicContent mods m0 t0 top0 c0) k j
          (List.Pairwise.sublist (List.sublist_cons_self _ _) hpw) hshape2
          (by omega) hget2 hc2 hall2

theorem loopGo_fails (curate : Nat → Except JSError CuratedContent) (plan : CCurriculum)
    (total : Nat) (rest : List (CTopic × Nat × Nat)) (i : Nat) (mods : List CModule)
    (tr : RunTrace) (k : Nat)
    (hk : k < rest.length)
    (hok : ∀ j, j < k → isOkE (curate (i + j)) = true)
    (hfail : isOkE (curate (i + k)) = false) :
    (loopGo curate plan total rest i mods tr).curatorCalls = tr.curatorCalls + k + 1 ∧
    (loopGo curate plan total rest i mods tr).statuses.getLast? =
      some controllerErrorStatus ∧
    (loopGo curate plan total rest i mods tr).curricula.getLast? =
      (if k = 0 then tr.curricula.getLast?
       else some { plan with modules := modsAfter curate rest i mods k }) := by
  induction rest generalizing i mods tr k with
  | nil => simp at hk
  | cons x rest ih =>
    obtain ⟨top0, m0, t0⟩ := x
    cases k with
    | zero =>
      obtain ⟨e, he⟩ := (isOkE_false_iff _).mp (by simpa using hfail)
      simp only [loopGo, he]
      refine ⟨?_, ?_, ?_⟩
      · simp [pushStatus]
      · simp [pushStatus, List.getLast?_concat]
      · simp [pushStatus]
    | succ k =>
      obtain ⟨c0, hc0⟩ := (isOkE_true_iff _).mp (by simpa using hok 0 (by omega))
      have hk2 : k < rest.length := by
        simp only [List.length_cons] at hk
        omega
      have hok2 : ∀ j, j < k → isOkE (curate ((i + 1) + j)) = true := by
        intro j hj
        rw [show (i + 1) + j = i + (j + 1) from by omega]
        exact hok (j + 1) (by omega)
      have hfail2 : isOkE (curate ((i + 1) + k)) = false := by
        rw [show (i + 1) + k = i + (k + 1) from by omega]
        exact hfail
      obtain ⟨ih1, ih2, ih3⟩ := ih (i + 1)
        (setTopicContent mods m0 t0 top0 c0)
        (pushCurriculum
          { pushStatus tr (curatingStatus m0 i total top0.title) with
              curatorCalls :=
                (pushStatus tr (curatingStatus m0 i total top0.title)).curatorCalls + 1 }
          { plan with modules := setTopicContent mods m0 t0 top0 c0 })
        k hk2 hok2 hfail2
      simp only [loopGo, hc0]
      refine ⟨?_, ih2, ?_⟩
      · rw [ih1]
        simp only [pushStatus, pushCurriculum]
        omega
      · rw [ih3]
        by_cases hk0 : k = 0
        · subst hk0
          simp [pushStatus, pushCurriculum, modsAfter, hc0, List.getLast?_concat]
        · simp [hk0, modsAfter, hc0]

/-- C9: if the j-th curator call succeeds for every j < k and the call for
topic k throws, the controller performs exactly k+1 curator calls (none after
the failing one), the last published status is the error status, and the last
published curriculum still carries the curated content merged for every topic
processed before k — partial results are retained, not rolled back. -/
theorem startGeneration_error_keeps_merged
    (plan : CCurriculum) (curate : Nat → Except JSError CuratedContent) (k : Nat)
    (hk : k < (flattenTopics plan.modules).length)
    (hok : ∀ j, j < k → isOkE (curate j) = true)
    (hfail : isOkE (curate k) = false) :
    (startGeneration (Except.ok plan) curate).curatorCalls = k + 1 ∧
    (startGeneration (Except.ok plan) curate).statuses.getLast? =
      some controllerErrorStatus ∧
    ∃ cur, (startGeneration (Except.ok plan) curate).curricula.getLast? = some cur ∧
      ∀ j, j < k → ∀ top m t, (flattenTopics plan.modules)[j]? = some (top, m, t) →
        ∃ c, curate j = Except.ok c ∧
          lookupTopic cur.modules m t = some { top with curatedContent := some c } := by
  have hok0 : ∀ j, j < k → isOkE (curate (0 + j)) = true := by
    intro j hj
    rw [Nat.zero_add]
    exact hok j hj
  have hfail0 : isOkE (curate (0 + k)) = false := by
    rw [Nat.zero_add]
    exact hfail
  obtain ⟨h1, h2, h3⟩ := loopGo_fails curate plan (flattenTopics plan.modules).length
    (flattenTopics plan.modules) 0 plan.modules
    (pushStatus
      (pushCurriculum
        { statuses := [planningStatus], curricula := [], curatorCalls := 0 } plan)
      curatingStartStatus)
    k hk hok0 hfail0
  have hstart : startGeneration (Except.ok plan) curate =
      loopGo curate plan (flattenTopics plan.modules).length (flattenTopics plan.modules) 0
        plan.modules
        (pushStatus
          (pushCurriculum
            { statuses := [planningStatus], curricula := [], curatorCalls := 0 } plan)
          curatingStartStatus) := rfl
  refine ⟨?_, by rw [hstart]; exact h2, ?_⟩
  · rw [hstart, h1]
    simp [pushStatus, pushCurriculum]
  · rw [hstart, h3]
    by_cases hk0 : k = 0
    · subst hk0
      refine ⟨plan, ?_, ?_⟩
      · simp [pushStatus, pushCurriculum]
      · intro j hj
        omega
    · simp only [hk0, if_false]
      refine ⟨_, rfl, ?_⟩
      intro j hj top m t hget
      obtain ⟨c, hc⟩ := (isOkE_true_iff _).mp (hok j hj)
      refine ⟨c, hc, ?_⟩
      exact modsAfter_lookup curate (flattenTopics plan.modules) 0 plan.modules k j top m t c
        (flattenTopics_pairwise_ne plan.modules)
        (fun x hx => flattenTopics_shape plan.modules x hx)
        hj hget (by rw [Nat.zero_add]; exact hc) hok0

theorem startGeneration_error_keeps_merged_witness :
    1 < (flattenTopics demoPlan.modules).length ∧
    (∀ j, j < 1 → isOkE (demoCurate j) = true) ∧
    isOkE (demoCurate 1) = false ∧
    ((startGeneration (Except.ok demoPlan) demoCurate).curatorCalls = 1 + 1 ∧
     (startGeneration (Except.ok demoPlan) demoCurate).statuses.getLast? =
       some controllerErrorStatus ∧
     ∃ cur, (startGeneration (Except.ok demoPlan) demoCurate).curricula.getLast? =
         some cur ∧
       ∀ j, j < 1 → ∀ top m t, (flattenTopics demoPlan.modules)[j]? = some (top, m, t) →
         ∃ c, demoCurate j = Except.ok c ∧
           lookupTopic cur.modules m t = some { top with curatedContent := some c }) :=
  ⟨by decide, by decide, by decide,
   startGeneration_error_keeps_merged demoPlan demoCurate 1
     (by decide) (by decide) (by decide)⟩

end SkillScout
